import Mathlib

/-!
Shallow embedding of the `mysql-pitr-helper` recoverer
(`recoverer/recoverer.go` together with the `pxc` helpers it calls) and
proofs about its binlog-selection, GTID and replay-pipeline logic.

Go strings are modelled as lists of characters (`Str`); the Go standard
library functions used by the source (`strings.Split` with one-character
separators, `strings.Contains`, `strings.TrimPrefix`, `strings.TrimSuffix`,
`strconv.ParseInt`) are embedded below.  GTID-set arithmetic the source
delegates to the MySQL server (`GTID_SUBTRACT`) is passed around as an
oracle parameter, exactly as the source passes around its `*pxc.PXC`
handle; theorems that need its meaning hypothesise that the oracle is a
faithful set subtraction.
-/

abbrev Str := List Char

/-- Go `strings.Split(s, sep)` for a one-character separator `sep`
(every separator used by the source — `":"`, `"-"`, `"_"`, `"/"` —
is a single character). -/
def splitCh (c : Char) : Str → List Str
  | [] => [[]]
  | a :: t =>
    match splitCh c t with
    | [] => [[]]
    | h :: r => if a = c then [] :: h :: r else (a :: h) :: r

/-- Go `strings.Contains(s, pat)`: `pat` occurs as a contiguous substring
of `s`. -/
def containsSub (pat : Str) : Str → Bool
  | [] => pat.isEmpty
  | a :: t => pat.isPrefixOf (a :: t) || containsSub pat t

/-- Go `strings.TrimPrefix(s, pat)`: drops one leading copy of `pat`. -/
def trimPrefix (pat s : Str) : Str :=
  if pat.isPrefixOf s then s.drop pat.length else s

/-- Go `strings.TrimSuffix(s, pat)`: drops one trailing copy of `pat`. -/
def trimSuffix (pat s : Str) : Str :=
  if pat.isSuffixOf s then s.take (s.length - pat.length) else s

def digitChar (c : Char) : Bool := decide ('0' ≤ c ∧ c ≤ '9')

def digitsVal (s : Str) : ℕ :=
  s.foldl (fun acc c => 10 * acc + (c.toNat - 48)) 0

def parseDigits (s : Str) : Option ℕ :=
  if s ≠ [] ∧ s.all digitChar then some (digitsVal s) else none

/-- Go `strconv.ParseInt(s, 10, 64)`: optional sign, decimal digits,
64-bit signed range. -/
def parseInt64 (s : Str) : Option Int :=
  match s with
  | '+' :: r => (parseDigits r).bind fun v =>
      if v ≤ 2 ^ 63 - 1 then some (v : ℤ) else none
  | '-' :: r => (parseDigits r).bind fun v =>
      if v ≤ 2 ^ 63 then some (-(v : ℤ)) else none
  | _ => (parseDigits s).bind fun v =>
      if v ≤ 2 ^ 63 - 1 then some (v : ℤ) else none

/-- The four `RecoverType` constants of the source (`RecoverType` is a
string type in Go). -/
def latestS : Str := "latest".data

def dateS : Str := "date".data

def transactionS : Str := "transaction".data

def skipS : Str := "skip".data

/-- `getExtendGTIDSet(gtidSet, gtid)` from `recoverer.go`: builds the
exclude range handed to `mysqlbinlog --exclude-gtids` in Transaction
mode.  The error payload carries the set the source reports in its
`incorrect source in gtid set %s` message. -/
def getExtendGTIDSet (gtidSet gtid : Str) : Except Str Str :=
  if gtidSet = gtid then .ok gtid
  else
    let s := splitCh ':' gtidSet
    if s.length < 2 then .error gtidSet
    else
      let e := splitCh '-' (s.getD 1 [])
      let eidx := if e.length = 1 then 0 else 1
      let gs := splitCh ':' gtid
      if gs.length < 2 then .error gtid
      else
        let es := splitCh '-' (gs.getD 1 [])
        .ok (gs.getD 0 [] ++ ':' :: (es.getD 0 [] ++ '-' :: e.getD eidx []))

/-- Errors of the Transaction-mode validation block in `New`
(`recoverer.go` lines 108-132). `indexPanic` models the Go panic of
`strings.Split(c.GTID, ":")[1]` when the configured GTID has no colon. -/
inductive NewErr where
  | invalidStartGtidset : NewErr
  | castLastSet : NewErr
  | parseTransactionNum : NewErr
  | indexPanic : NewErr
  | targetBeforeBackup : NewErr
deriving DecidableEq

/-- The Transaction-mode validation performed by `New` after the storage
constructor succeeds (`recoverer.go` lines 108-132).  The local
`startGTID` is declared (`var startGTID string`) and — per the comment
`Actual start GTID acquiring moved into Run function` — never assigned
before this block runs, so it is the empty string here. -/
def newValidate (recoverType gtidCfg : Str) : Except NewErr Unit :=
  if recoverType = transactionS then
    let startGTID : Str := []
    let gtidSplitted := splitCh ':' startGTID
    if gtidSplitted.length ≠ 2 then .error .invalidStartGtidset
    else
      let setSplitted := splitCh '-' (gtidSplitted.getD 1 [])
      let lastSetIdx := if setSplitted.length = 1 then 0 else 1
      let lastSet := setSplitted.getD lastSetIdx []
      match parseInt64 lastSet with
      | none => .error .castLastSet
      | some lastSetInt =>
        match splitCh ':' gtidCfg with
        | _ :: g1 :: _ =>
          match parseInt64 g1 with
          | none => .error .parseTransactionNum
          | some transactionNum =>
            if transactionNum < lastSetInt then .error .targetBeforeBackup
            else .ok ()
        | _ => .error .indexPanic
  else .ok ()

/-- Exactly two decimal digits (Go `getnum` with `fixed`, as required by
the `01`, `02`, `04` and `05` layout fields). -/
def getnumF2 (s : Str) : Option (ℕ × Str) :=
  match s with
  | a :: b :: r =>
    if digitChar a && digitChar b then
      some ((a.toNat - 48) * 10 + (b.toNat - 48), r)
    else none
  | _ => none

/-- Exactly four decimal digits (Go layout field `2006`). -/
def getnum4 (s : Str) : Option (ℕ × Str) :=
  match s with
  | a :: b :: c :: d :: r =>
    if digitChar a && digitChar b && digitChar c && digitChar d then
      some (((a.toNat - 48) * 10 + (b.toNat - 48)) * 100 +
        (c.toNat - 48) * 10 + (d.toNat - 48), r)
    else none
  | _ => none

/-- One or two decimal digits (Go `getnum` without `fixed`, layout field
`15` for the hour). -/
def getnumU2 (s : Str) : Option (ℕ × Str) :=
  match s with
  | a :: b :: r =>
    if digitChar a then
      if digitChar b then some ((a.toNat - 48) * 10 + (b.toNat - 48), r)
      else some (a.toNat - 48, b :: r)
    else none
  | [a] => if digitChar a then some (a.toNat - 48, []) else none
  | [] => none

def expectCh (c : Char) (s : Str) : Option Str :=
  match s with
  | a :: r => if a = c then some r else none
  | [] => none

def isLeapYear (y : ℕ) : Bool := y % 4 = 0 && (y % 100 ≠ 0 || y % 400 = 0)

def daysInMonth (y m : ℕ) : ℕ :=
  if m = 2 then (if isLeapYear y then 29 else 28)
  else if m = 4 ∨ m = 6 ∨ m = 9 ∨ m = 11 then 30
  else 31

/-- Modelled from the spec: Go's `time.Parse` (standard library, not part
of this repository) applied to the fixed layout `2006-01-02 15:04:05`
(`YYYY-MM-DD HH:MM:SS`): four-digit year, two-digit zero-padded month and
day, one-or-two-digit hour, two-digit minute and second, with Go's range
checks (month 1-12, day within the month, hour below 24, minute and
second below 60) and no text left over.  Returns the parsed fields. -/
def goTimeParse (s : Str) : Option (ℕ × ℕ × ℕ × ℕ × ℕ × ℕ) := do
  let (y, s) ← getnum4 s
  let s ← expectCh '-' s
  let (mo, s) ← getnumF2 s
  let s ← expectCh '-' s
  let (d, s) ← getnumF2 s
  let s ← expectCh ' ' s
  let (h, s) ← getnumU2 s
  let s ← expectCh ':' s
  let (mi, s) ← getnumF2 s
  let s ← expectCh ':' s
  let (sec, s) ← getnumF2 s
  if s = [] ∧ 1 ≤ mo ∧ mo ≤ 12 ∧ 1 ≤ d ∧ d ≤ daysInMonth y mo ∧
      h ≤ 23 ∧ mi ≤ 59 ∧ sec ≤ 59 then
    pure (y, mo, d, h, mi, sec)
  else none

/-- Errors of the `Run` stop-flag switch. -/
inductive RunErr where
  | parseDate : RunErr
  | wrongRecoverType : RunErr
deriving DecidableEq

/-- The `--stop-datetime="<recoverTime>"` flag built in the `Date` case. -/
def stopDatetimeFlag (t : Str) : Str := "--stop-datetime=\"".data ++ t ++ "\"".data

/-- The recover-flag selection switch of `Run` (`recoverer.go` lines
204-221).  The `Skip` and `Transaction` cases are commented out in the
source, so those recover types reach the `default` arm; `Latest` leaves
the flag at its zero value; `Date` assigns the flag and then parses
`recoverTime`, failing the run when the parse fails. -/
def runRecoverFlag (rt recoverTime : Str) : Except RunErr Str :=
  if rt = dateS then
    match goTimeParse recoverTime with
    | none => .error .parseDate
    | some _ => .ok (stopDatetimeFlag recoverTime)
  else if rt = latestS then .ok []
  else .error .wrongRecoverType

/-- Errors of the replay loop in `recover`. -/
inductive RecErr where
  | tsFromName : RecErr
  | binlogTime : RecErr
  | getObj : Str → RecErr
  | decoderFail : Str → RecErr
deriving DecidableEq

/-- The per-segment replay loop of `recover` (`recoverer.go` lines
254-286).  `endUnix` is `recoverEndTime.Unix()`; `getOk b` tells whether
`storage.GetObject` succeeds for `b` and `decOk b` whether the
`mysqlbinlog` child exits cleanly.  Returns the list of segments
actually streamed through the decoder, in order. -/
def replayList (rt : Str) (endUnix : Int) (getOk decOk : Str → Bool) :
    List Str → Except RecErr (List Str)
  | [] => .ok []
  | b :: rest =>
    if rt = dateS then
      let arr := splitCh '_' b
      if arr.length < 2 then .error .tsFromName
      else
        match parseInt64 (arr.getD 1 []) with
        | none => .error .binlogTime
        | some ts =>
          if endUnix < ts then .ok []
          else
            if getOk b then
              if decOk b then
                (replayList rt endUnix getOk decOk rest).map fun l => b :: l
              else .error (.decoderFail b)
            else .error (.getObj b)
    else
      if getOk b then
        if decOk b then
          (replayList rt endUnix getOk decOk rest).map fun l => b :: l
        else .error (.decoderFail b)
      else .error (.getObj b)

/-- Modelled from the spec: the fragment of Go's `net/url.Parse`
(standard library, not part of this repository) needed for the
bucket-URL shapes of the spec — `scheme://host/path…` or a bare path.
Scans for the first `://`; everything before it is the scheme, the
segment up to the next `/` is the host and the rest the path.  Without
`://` the whole input is the path, as `url.Parse` does for the bare
`bucket/prefix…` inputs. -/
def urlSplitScheme : Str → Option (Str × Str)
  | [] => none
  | a :: t =>
    if a = ':' ∧ t.take 2 = ['/', '/'] then some ([], t.drop 2)
    else (urlSplitScheme t).map fun p => (a :: p.1, p.2)

structure GoURL where
  scheme : Str
  host : Str
  path : Str
deriving DecidableEq

def urlParse (s : Str) : GoURL :=
  match urlSplitScheme s with
  | some (sch, rest) => ⟨sch, rest.takeWhile (· ≠ '/'), rest.dropWhile (· ≠ '/')⟩
  | none => ⟨[], [], s⟩

/-- `getBucketAndPrefix` (`recoverer.go` lines 154-178).  `u.IsAbs()` is
`u.Scheme != ""`. -/
def getBucketAndPrefix (bucketURL : Str) : Except Unit (Str × Str) :=
  let u := urlParse bucketURL
  let path := trimPrefix ['/'] (trimSuffix ['/'] u.path)
  if u.scheme ≠ [] ∧ u.scheme = "s3".data then .ok (u.host, path ++ ['/'])
  else
    let bucketArr := splitCh '/' path
    let pfx :=
      if 1 < bucketArr.length then
        trimPrefix (bucketArr.getD 0 [] ++ ['/']) path ++ ['/']
      else []
    let bucket := bucketArr.getD 0 []
    if bucket.length = 0 then .error () else .ok (bucket, pfx)

instance {α β : Type} [DecidableEq α] [DecidableEq β] :
    DecidableEq (Except α β) := fun a b =>
  match a, b with
  | .ok x, .ok y => decidable_of_iff (x = y) (by simp)
  | .error x, .error y => decidable_of_iff (x = y) (by simp)
  | .ok _, .error _ => isFalse (by simp)
  | .error _, .ok _ => isFalse (by simp)

/-- Result of `storage.GetObject` on a sidecar object in `setBinlogs`:
the object may be missing (logged and skipped), its body may fail to
read (`io.ReadAll` error, aborts the walk), or it yields the sidecar's
GTID-set string. -/
inductive FetchRes where
  | notFound : FetchRes
  | readFail : FetchRes
  | content : Str → FetchRes
deriving DecidableEq

/-- Errors `setBinlogs` can return. -/
inductive PErr where
  | extendErr : Str → PErr
  | readErr : Str → PErr
  | noBinlogs : PErr
deriving DecidableEq

/-- Binlog objects whose name contains `-gtid-set` are sidecars and are
skipped by the walk. -/
def isSidecarName (b : Str) : Bool := containsSub "-gtid-set".data b

/-- The loop body of `setBinlogs` (`recoverer.go` lines 407-449), walking
the reversed (descending) object list.  `sub` is the server's
`GTID_SUBTRACT` oracle (`pxc.SubtractGTIDSet`), `sidecar` the
`storage.GetObject` oracle for `<name>-gtid-set` objects, and `gset` the
accumulated `r.gtidSet` state.  Returns the accumulated (descending)
binlog list together with the final `r.gtidSet`. -/
def planWalk (sub : Str → Str → Str) (rt gtid startGTID : Str)
    (sidecar : Str → FetchRes) : List Str → Str → Except PErr (List Str × Str)
  | [], gset => .ok ([], gset)
  | b :: rest, gset =>
    if isSidecarName b then planWalk sub rt gtid startGTID sidecar rest gset
    else
      match sidecar b with
      | .notFound => planWalk sub rt gtid startGTID sidecar rest gset
      | .readFail => .error (.readErr b)
      | .content segSet =>
        if 0 < gtid.length ∧ rt = transactionS then
          if sub segSet gtid = segSet then
            if gset.length = 0 then planWalk sub rt gtid startGTID sidecar rest gset
            else
              if sub startGTID segSet = startGTID then
                (planWalk sub rt gtid startGTID sidecar rest gset).map
                  fun p => (b :: p.1, p.2)
              else .ok ([b], gset)
          else
            match getExtendGTIDSet segSet gtid with
            | .error e => .error (.extendErr e)
            | .ok newSet =>
              if newSet.length = 0 then planWalk sub rt gtid startGTID sidecar rest newSet
              else
                if sub startGTID segSet = startGTID then
                  (planWalk sub rt gtid startGTID sidecar rest newSet).map
                    fun p => (b :: p.1, p.2)
                else .ok ([b], newSet)
        else
          if sub startGTID segSet = startGTID then
            (planWalk sub rt gtid startGTID sidecar rest gset).map
              fun p => (b :: p.1, p.2)
          else .ok ([b], gset)

/-- `(*Recoverer).setBinlogs` (`recoverer.go` lines 399-457): reverse the
ascending listing, walk it, fail when nothing was chosen, reverse the
choice back to ascending order.  The second component is the final
`r.gtidSet` (the Transaction-mode exclude set). -/
def setBinlogs (sub : Str → Str → Str) (rt gtid startGTID : Str)
    (sidecar : Str → FetchRes) (list : List Str) : Except PErr (List Str × Str) :=
  match planWalk sub rt gtid startGTID sidecar list.reverse [] with
  | .error e => .error e
  | .ok (bs, g) => if bs.length = 0 then .error .noBinlogs else .ok (bs.reverse, g)

/-- A `GTID_SUBTRACT` oracle built from a semantic interpretation `sem`
of GTID-set strings: it returns its first argument unchanged exactly
when the two sets are disjoint, and otherwise some string different
from the first argument (a faithful abstraction of the server, which
returns the canonical form of the difference). -/
def mkSub {α : Type} [DecidableEq α] (sem : Str → Finset α) (a b : Str) : Str :=
  if Disjoint (sem a) (sem b) then a else a ++ ['!']

/-- Archive of end-to-end scenario S1: four segments, ascending, each
followed by its sidecar object. -/
def seg1 : Str := "binlog_1_a".data

def seg2 : Str := "binlog_2_b".data

def seg3 : Str := "binlog_3_c".data

def seg4 : Str := "binlog_4_d".data

def listEx : List Str :=
  [seg1, seg1 ++ "-gtid-set".data, seg2, seg2 ++ "-gtid-set".data,
   seg3, seg3 ++ "-gtid-set".data, seg4, seg4 ++ "-gtid-set".data]

/-- Sidecar GTID-set strings of scenario S1. -/
def scEx (b : Str) : Str :=
  if b = seg1 then "u:1-50".data
  else if b = seg2 then "u:1-80".data
  else if b = seg3 then "u:1-120".data
  else if b = seg4 then "u:1-160".data
  else []

def sidecarEx (b : Str) : FetchRes :=
  if b = seg1 ∨ b = seg2 ∨ b = seg3 ∨ b = seg4 then .content (scEx b)
  else .notFound

/-- Semantic value of the GTID-set strings appearing in scenario S1
(single source uuid `u`, so a set of transaction numbers). -/
def semEx (s : Str) : Finset ℕ :=
  if s = "u:1-50".data then Finset.Icc 1 50
  else if s = "u:1-80".data then Finset.Icc 1 80
  else if s = "u:1-120".data then Finset.Icc 1 120
  else if s = "u:1-160".data then Finset.Icc 1 160
  else if s = "u:1-100".data then Finset.Icc 1 100
  else ∅

def subEx : Str → Str → Str := mkSub semEx

def startEx : Str := "u:1-100".data

/-- The timestamp a segment name carries: the second underscore-separated
field of `binlog_<ts>_<suffix>`, as the replay loop reads it. -/
def nameTs (b : Str) : Int := (parseInt64 ((splitCh '_' b).getD 1 [])).getD 0

theorem mkSub_spec {α : Type} [DecidableEq α] (sem : Str → Finset α) (a b : Str) :
    mkSub sem a b = a ↔ Disjoint (sem a) (sem b) := by
  unfold mkSub
  split
  · simp_all
  · constructor
    · intro h
      have := congrArg List.length h
      simp at this
    · intro h; simp_all

theorem splitCh_ne_nil (c : Char) (l : Str) : splitCh c l ≠ [] := by
  cases l with
  | nil => simp [splitCh]
  | cons a t =>
    unfold splitCh
    cases splitCh c t with
    | nil => simp
    | cons h r =>
      dsimp only
      split <;> simp

theorem splitCh_not_mem {c : Char} {l : Str} (h : c ∉ l) : splitCh c l = [l] := by
  induction l with
  | nil => rfl
  | cons a t ih =>
    have ha : a ≠ c := fun hac => h (hac ▸ List.mem_cons_self a t)
    have ht : c ∉ t := fun hct => h (List.mem_cons_of_mem a hct)
    unfold splitCh
    rw [ih ht]
    simp [ha]

theorem splitCh_append (c : Char) (u v : Str) (h : c ∉ u) :
    splitCh c (u ++ c :: v) = u :: splitCh c v := by
  induction u with
  | nil =>
    obtain ⟨h0, r, hr⟩ := List.exists_cons_of_ne_nil (splitCh_ne_nil c v)
    simp only [List.nil_append]
    rw [splitCh.eq_def]
    dsimp only
    rw [hr]
    simp [hr]
  | cons a t ih =>
    have ha : a ≠ c := fun hac => h (hac ▸ List.mem_cons_self a t)
    have ht : c ∉ t := fun hct => h (List.mem_cons_of_mem a hct)
    simp only [List.cons_append]
    rw [splitCh.eq_def]
    dsimp only
    rw [ih ht]
    simp [ha]

theorem not_colon_mem_range {lo hi : Str} (hlo : ':' ∉ lo) (hhi : ':' ∉ hi) :
    (':' : Char) ∉ lo ++ '-' :: hi := by
  intro hmem
  rcases List.mem_append.mp hmem with h1 | h2
  · exact hlo h1
  · rcases List.mem_cons.mp h2 with h3 | h4
    · exact absurd h3 (by decide)
    · exact hhi h4

/-- C4: on a segment set of the form `uuid:lo-hi` (or `uuid:n`, the single
number serving as both endpoints) and a target of the form `uuid:n`,
`getExtendGTIDSet` returns `uuid:n-hi`, and returns the target unchanged
when the two inputs are equal. -/
theorem getExtendGTIDSet_forms (u lo hi n m : Str)
    (hu : ':' ∉ u)
    (hlo : ':' ∉ lo) (hlo' : '-' ∉ lo)
    (hhi : ':' ∉ hi) (hhi' : '-' ∉ hi)
    (hn : ':' ∉ n) (hn' : '-' ∉ n)
    (hm : ':' ∉ m) (hm' : '-' ∉ m) :
    getExtendGTIDSet (u ++ ':' :: (lo ++ '-' :: hi)) (u ++ ':' :: n) =
      .ok (u ++ ':' :: (n ++ '-' :: hi)) ∧
    getExtendGTIDSet (u ++ ':' :: m) (u ++ ':' :: n) =
      .ok (if m = n then u ++ ':' :: n else u ++ ':' :: (n ++ '-' :: m)) := by
  have hsegsplit : splitCh ':' (u ++ ':' :: (lo ++ '-' :: hi)) = [u, lo ++ '-' :: hi] := by
    rw [splitCh_append _ _ _ hu, splitCh_not_mem (not_colon_mem_range hlo hhi)]
  have htgtsplit : splitCh ':' (u ++ ':' :: n) = [u, n] := by
    rw [splitCh_append _ _ _ hu, splitCh_not_mem hn]
  have hesplit : splitCh '-' (lo ++ '-' :: hi) = [lo, hi] := by
    rw [splitCh_append _ _ _ hlo', splitCh_not_mem hhi']
  have hessplit : splitCh '-' n = [n] := splitCh_not_mem hn'
  constructor
  · have hne1 : u ++ ':' :: (lo ++ '-' :: hi) ≠ u ++ ':' :: n := by
      intro h
      have h2 := List.append_cancel_left h
      simp only [List.cons.injEq, true_and] at h2
      have hd : '-' ∈ lo ++ '-' :: hi := by simp
      rw [h2] at hd
      exact hn' hd
    rw [getExtendGTIDSet, if_neg hne1]
    simp [hsegsplit, htgtsplit, hesplit, hessplit]
  · by_cases hmn : m = n
    · subst hmn
      rw [getExtendGTIDSet, if_pos rfl]
      simp
    · have hne2 : u ++ ':' :: m ≠ u ++ ':' :: n := by
        intro h
        have h2 := List.append_cancel_left h
        simp only [List.cons.injEq, true_and] at h2
        exact hmn h2
      have hmsplit : splitCh ':' (u ++ ':' :: m) = [u, m] := by
        rw [splitCh_append _ _ _ hu, splitCh_not_mem hm]
      have hemsplit : splitCh '-' m = [m] := splitCh_not_mem hm'
      rw [getExtendGTIDSet, if_neg hne2]
      simp [hmsplit, htgtsplit, hemsplit, hessplit, hmn]

/-- C5 (amended): `getExtendGTIDSet` contains no comma check; whenever
both arguments contain a colon (at least two colon-separated parts) the
result is a success, comma or not. -/
theorem getExtendGTIDSet_ok_of_colons (s t : Str)
    (hs : 2 ≤ (splitCh ':' s).length) (ht : 2 ≤ (splitCh ':' t).length) :
    (getExtendGTIDSet s t).isOk = true := by
  rw [getExtendGTIDSet]
  by_cases hst : s = t
  · rw [if_pos hst]
    rfl
  · rw [if_neg hst]
    simp only
    rw [if_neg (by omega)]
    rw [if_neg (by omega)]
    rfl

theorem planWalk_all_skip (sub : Str → Str → Str) (rt gtid start : Str)
    (sidecar : Str → FetchRes) (l : List Str) (g : Str)
    (h : ∀ b ∈ l, isSidecarName b = true) :
    planWalk sub rt gtid start sidecar l g = .ok ([], g) := by
  induction l with
  | nil => rfl
  | cons b t ih =>
    rw [planWalk, if_pos (h b (List.mem_cons_self b t))]
    exact ih fun x hx => h x (List.mem_cons_of_mem b hx)

theorem planWalk_no_break (sub : Str → Str → Str) (rt gtid start : Str)
    (sidecar : Str → FetchRes) (l : List Str) (g : Str)
    (hgate : gtid = [] ∨ rt ≠ transactionS)
    (hfetch : ∀ b ∈ l, isSidecarName b = false →
      ∃ s, sidecar b = .content s ∧ sub start s = start) :
    planWalk sub rt gtid start sidecar l g =
      .ok (l.filter (fun x => !isSidecarName x), g) := by
  have hgate' : ¬(0 < gtid.length ∧ rt = transactionS) := by
    rcases hgate with h1 | h1
    · subst h1; simp
    · exact fun hc => h1 hc.2
  induction l with
  | nil => rfl
  | cons b t ih =>
    by_cases hb : isSidecarName b = true
    · rw [planWalk, if_pos hb]
      rw [ih fun x hx h => hfetch x (List.mem_cons_of_mem b hx) h]
      simp [List.filter, hb]
    · have hb' : isSidecarName b = false := by simpa using hb
      obtain ⟨s, hs, hsub⟩ := hfetch b (List.mem_cons_self b t) hb'
      rw [planWalk, if_neg (by simp [hb']), hs]
      simp only [if_neg hgate']
      rw [if_pos hsub]
      rw [ih fun x hx h => hfetch x (List.mem_cons_of_mem b hx) h]
      simp [Except.map, List.filter_cons, hb']

theorem planWalk_break_head (sub : Str → Str → Str) (rt gtid start : Str)
    (sidecar : Str → FetchRes) (l : List Str) (g : Str) (b : Str) (bs : List Str)
    (hgate : gtid = [] ∨ rt ≠ transactionS)
    (hfilter : l.filter (fun x => !isSidecarName x) = b :: bs)
    (hfetch : ∃ s, sidecar b = .content s ∧ sub start s ≠ start) :
    planWalk sub rt gtid start sidecar l g = .ok ([b], g) := by
  have hgate' : ¬(0 < gtid.length ∧ rt = transactionS) := by
    rcases hgate with h1 | h1
    · subst h1; simp
    · exact fun hc => h1 hc.2
  induction l with
  | nil => simp [List.filter] at hfilter
  | cons a t ih =>
    by_cases ha : isSidecarName a = true
    · rw [planWalk, if_pos ha]
      exact ih (by simpa [List.filter, ha] using hfilter)
    · have ha' : isSidecarName a = false := by simpa using ha
      have hfilter' : a = b ∧ t.filter (fun x => !isSidecarName x) = bs := by
        rw [List.filter_cons, ha'] at hfilter
        simp at hfilter
        exact hfilter
      obtain ⟨rfl, _⟩ := hfilter'
      obtain ⟨s, hs, hsub⟩ := hfetch
      rw [planWalk, if_neg (by simp [ha']), hs]
      simp only [if_neg hgate']
      rw [if_neg hsub]

theorem map_ne_noBinlogs {f : List Str × Str → List Str × Str}
    {r : Except PErr (List Str × Str)} (hr : r ≠ .error .noBinlogs) :
    r.map f ≠ .error .noBinlogs := by
  cases r with
  | error e => simpa [Except.map] using hr
  | ok p => simp [Except.map]

theorem planWalk_ne_noBinlogs (sub : Str → Str → Str) (rt gtid start : Str)
    (sidecar : Str → FetchRes) (l : List Str) (g : Str) :
    planWalk sub rt gtid start sidecar l g ≠ .error .noBinlogs := by
  induction l generalizing g with
  | nil => simp [planWalk]
  | cons b t ih =>
    rw [planWalk]
    repeat' split
    all_goals first
      | exact ih _
      | exact map_ne_noBinlogs (ih _)
      | simp

/-- C8: segment selection fails with the no-applicable-binlogs error when
the walk accumulates nothing — in particular for a listing made only of
sidecar objects (vacuously including the empty listing) — and that error
appears exactly when the walk completed with an empty accumulated list. -/
theorem setBinlogs_noApplicable (sub : Str → Str → Str) (rt gtid start : Str)
    (sidecar : Str → FetchRes) (list : List Str) :
    ((∀ b ∈ list, isSidecarName b = true) →
      setBinlogs sub rt gtid start sidecar list = .error .noBinlogs) ∧
    (setBinlogs sub rt gtid start sidecar list = .error .noBinlogs ↔
      ∃ g, planWalk sub rt gtid start sidecar list.reverse [] = .ok ([], g)) := by
  constructor
  · intro h
    have hw := planWalk_all_skip sub rt gtid start sidecar list.reverse []
      (fun b hb => h b (List.mem_reverse.mp hb))
    rw [setBinlogs, hw]
    simp
  · rw [setBinlogs]
    rcases hx : planWalk sub rt gtid start sidecar list.reverse [] with e | ⟨bs, g⟩
    · simp only
      constructor
      · intro h
        exfalso
        apply planWalk_ne_noBinlogs sub rt gtid start sidecar list.reverse []
        rw [hx]
        injection h with h'
        rw [h']
      · rintro ⟨g', hg⟩
        simp at hg
    · simp only
      by_cases hbs : bs.length = 0
      · rw [if_pos hbs]
        have hnil : bs = [] := List.length_eq_zero.mp hbs
        subst hnil
        simp
      · rw [if_neg hbs]
        constructor
        · intro h
          cases h
        · rintro ⟨g', hg⟩
          injection hg with h'
          have hb : bs = [] := congrArg Prod.fst h'
          exact absurd (by rw [hb]; rfl) hbs

/-- C1 (amended): under monotone sidecars the plan is a contiguous
suffix of the ascending segment list, but its earliest element is
determined by the newest segment: when the newest sidecar set meets
`startGTID` the plan is just the newest segment, and when it is disjoint
from `startGTID` (hence, by monotonicity, every sidecar is) the plan is
the whole segment list. -/
theorem setBinlogs_monotone_suffix {α : Type} [DecidableEq α]
    (sem : Str → Finset α) (sub : Str → Str → Str) (rt gtid start : Str)
    (sidecar : Str → FetchRes) (sc : Str → Str)
    (list : List Str) (newest : Str) (older : List Str)
    (hgate : gtid = [] ∨ rt ≠ transactionS)
    (hsegs : list.reverse.filter (fun x => !isSidecarName x) = newest :: older)
    (hfetch : ∀ b ∈ newest :: older, sidecar b = .content (sc b))
    (hsub : ∀ a b, sub a b = a ↔ Disjoint (sem a) (sem b))
    (hmono : ∀ b ∈ newest :: older, sem (sc b) ⊆ sem (sc newest)) :
    setBinlogs sub rt gtid start sidecar list =
      if Disjoint (sem start) (sem (sc newest))
      then .ok ((newest :: older).reverse, [])
      else .ok ([newest], []) := by
  by_cases hd : Disjoint (sem start) (sem (sc newest))
  · rw [if_pos hd]
    have hw := planWalk_no_break sub rt gtid start sidecar list.reverse [] hgate ?hf
    case hf =>
      intro b hb hns
      have hmem : b ∈ newest :: older := by
        rw [← hsegs]
        exact List.mem_filter.mpr ⟨hb, by simp [hns]⟩
      exact ⟨sc b, hfetch b hmem,
        (hsub start (sc b)).mpr (hd.mono_right (hmono b hmem))⟩
    rw [setBinlogs, hw, hsegs]
    simp
  · rw [if_neg hd]
    have hne : sub start (sc newest) ≠ start := fun h =>
      hd ((hsub start (sc newest)).mp h)
    have hw := planWalk_break_head sub rt gtid start sidecar list.reverse []
      newest older hgate hsegs
      ⟨sc newest, hfetch newest (List.mem_cons_self _ _), hne⟩
    rw [setBinlogs, hw]
    simp

/-- C2 (amended): the stop flag is selected purely by mode: `Latest`
yields the empty flag, `Date` yields the quoted stop-datetime flag and
fails exactly when `recoverTime` does not parse, and — because the
`Skip` and `Transaction` arms are commented out in the source — both of
those modes make `Run` fail with the wrong-recover-type error. -/
theorem runRecoverFlag_by_mode (t : Str) :
    runRecoverFlag latestS t = .ok [] ∧
    runRecoverFlag skipS t = .error .wrongRecoverType ∧
    runRecoverFlag transactionS t = .error .wrongRecoverType ∧
    ((goTimeParse t).isSome → runRecoverFlag dateS t = .ok (stopDatetimeFlag t)) ∧
    (goTimeParse t = none → runRecoverFlag dateS t = .error .parseDate) := by
  refine ⟨?_, ?_, ?_, ?_, ?_⟩
  · rw [runRecoverFlag, if_neg (by decide), if_pos rfl]
  · rw [runRecoverFlag, if_neg (by decide), if_neg (by decide)]
  · rw [runRecoverFlag, if_neg (by decide), if_neg (by decide)]
  · intro h
    obtain ⟨v, hv⟩ := Option.isSome_iff_exists.mp h
    rw [runRecoverFlag, if_pos rfl, hv]
  · intro h
    rw [runRecoverFlag, if_pos rfl, h]

/-- C2 counterexample: contrary to the claim, `Skip` mode does make the
run fail with the wrong-recover-type error (its switch arm is commented
out in the source). -/
theorem runRecoverFlag_skip_cex :
    runRecoverFlag skipS "u:77".data = .error .wrongRecoverType := by decide

theorem runRecoverFlag_by_mode_witness :
    runRecoverFlag dateS "2024-01-02 03:04:05".data =
      .ok (stopDatetimeFlag "2024-01-02 03:04:05".data) ∧
    runRecoverFlag latestS "2024-01-02 03:04:05".data = .ok [] :=
  ⟨(runRecoverFlag_by_mode "2024-01-02 03:04:05".data).2.2.2.1 (by decide),
   (runRecoverFlag_by_mode "2024-01-02 03:04:05".data).1⟩

/-- C3: at the S4 scenario (`gtid = u:150`, a cluster whose executed set
would be `u:1-200`), the Transaction-mode validation in `New` does not
report the target-before-backup error: it fails with the
invalid-start-gtidset error, because it validates the never-assigned
local `startGTID` instead of the cluster's executed set. -/
theorem newValidate_transaction_invalid_start :
    newValidate transactionS "u:150".data = .error .invalidStartGtidset := by
  decide

/-- C9: whenever the recovery type is `transaction` (and the storage
constructor succeeded, which is all that runs before this block), `New`
fails with the invalid-start-gtidset error for every configured
`PITR_GTID`, because it splits the always-empty local `startGTID`; no
Recoverer is ever constructed in Transaction mode. -/
theorem newValidate_transaction_always_fails (gtidCfg : Str) :
    newValidate transactionS gtidCfg = .error .invalidStartGtidset := rfl

theorem newValidate_transaction_always_fails_witness :
    newValidate transactionS "v:42".data = .error .invalidStartGtidset :=
  newValidate_transaction_always_fails "v:42".data

/-- C6: the seven bucket-URL cases from the repository's own table map to
exactly the stated (bucket, prefix-with-trailing-slash) pairs. -/
theorem getBucketAndPrefix_table :
    getBucketAndPrefix "operator-testing/test".data =
      .ok ("operator-testing".data, "test/".data) ∧
    getBucketAndPrefix "s3://operator-testing/test".data =
      .ok ("operator-testing".data, "test/".data) ∧
    getBucketAndPrefix "https://somedomain/operator-testing/test".data =
      .ok ("operator-testing".data, "test/".data) ∧
    getBucketAndPrefix "operator-testing/test/".data =
      .ok ("operator-testing".data, "test/".data) ∧
    getBucketAndPrefix "operator-testing/test/pitr".data =
      .ok ("operator-testing".data, "test/pitr/".data) ∧
    getBucketAndPrefix "https://somedomain/operator-testing".data =
      .ok ("operator-testing".data, "".data) ∧
    getBucketAndPrefix "operator-testing".data =
      .ok ("operator-testing".data, "".data) := by
  decide

/-- C7: in Date mode, for well-formed segment names, the replay loop
streams exactly the longest prefix of `orderedSegments` whose
name-embedded timestamp is at most the recover time's epoch seconds (it
breaks before fetching the first later segment — the success of fetch
and decoder is only needed on that prefix), and streams nothing when the
recover time precedes the first segment's timestamp. -/
theorem replayList_date_takeWhile (endUnix : Int) (getOk decOk : Str → Bool)
    (l : List Str)
    (hparse : ∀ b ∈ l, 2 ≤ (splitCh '_' b).length ∧
      (parseInt64 ((splitCh '_' b).getD 1 [])).isSome)
    (hok : ∀ b ∈ l.takeWhile (fun b => decide (nameTs b ≤ endUnix)),
      getOk b = true ∧ decOk b = true) :
    replayList dateS endUnix getOk decOk l =
      .ok (l.takeWhile (fun b => decide (nameTs b ≤ endUnix))) ∧
    (∀ b0 bs, l = b0 :: bs → endUnix < nameTs b0 →
      replayList dateS endUnix getOk decOk l = .ok []) := by
  have hmain : replayList dateS endUnix getOk decOk l =
      .ok (l.takeWhile (fun b => decide (nameTs b ≤ endUnix))) := by
    induction l with
    | nil => rfl
    | cons b t ih =>
      obtain ⟨hlen, hsome⟩ := hparse b (List.mem_cons_self b t)
      obtain ⟨ts, hts⟩ := Option.isSome_iff_exists.mp hsome
      have hname : nameTs b = ts := by rw [nameTs, hts]; rfl
      rw [replayList, if_pos rfl]
      simp only [hts]
      rw [if_neg (by omega)]
      by_cases hcmp : endUnix < ts
      · rw [if_pos hcmp]
        have hfalse : (decide (nameTs b ≤ endUnix)) = false := by
          rw [hname]
          simp only [decide_eq_false_iff_not, not_le]
          exact hcmp
        rw [List.takeWhile_cons, hfalse]
        rfl
      · rw [if_neg hcmp]
        have htrue : (decide (nameTs b ≤ endUnix)) = true := by
          rw [hname]
          simp only [decide_eq_true_eq]
          omega
        have htw : (b :: t).takeWhile (fun b => decide (nameTs b ≤ endUnix)) =
            b :: t.takeWhile (fun b => decide (nameTs b ≤ endUnix)) := by
          rw [List.takeWhile_cons, htrue]
          rfl
        have hokb := hok b (by rw [htw]; exact List.mem_cons_self _ _)
        rw [hokb.1, hokb.2]
        simp only [if_true]
        rw [ih (fun x hx => hparse x (List.mem_cons_of_mem b hx))
          (fun x hx => hok x (by rw [htw]; exact List.mem_cons_of_mem b hx))]
        rw [htw]
        rfl
  refine ⟨hmain, ?_⟩
  intro b0 bs hl hlt
  subst hl
  rw [hmain, List.takeWhile_cons]
  have hfalse : (decide (nameTs b0 ≤ endUnix)) = false := by
    simp only [decide_eq_false_iff_not, not_le]
    exact hlt
  rw [hfalse]
  rfl

theorem replayList_date_takeWhile_witness :
    replayList dateS 2000 (fun _ => true) (fun _ => true)
      ["binlog_1000_a".data, "binlog_2000_b".data, "binlog_3000_c".data] =
      .ok ["binlog_1000_a".data, "binlog_2000_b".data] :=
  ((replayList_date_takeWhile 2000 (fun _ => true) (fun _ => true)
    ["binlog_1000_a".data, "binlog_2000_b".data, "binlog_3000_c".data]
    (by decide) (by decide)).1).trans (by decide)

theorem urlSplitScheme_none {l : Str} (h : ':' ∉ l) : urlSplitScheme l = none := by
  induction l with
  | nil => rfl
  | cons a t ih =>
    have ha : a ≠ ':' := fun hac => h (hac ▸ List.mem_cons_self a t)
    have ht : ':' ∉ t := fun hct => h (List.mem_cons_of_mem a hct)
    rw [urlSplitScheme, if_neg (fun hc => ha hc.1), ih ht]
    rfl

theorem urlSplitScheme_s3 (bucket : Str) :
    urlSplitScheme ("s3://".data ++ bucket) = some ("s3".data, bucket) := rfl

/-- C10: an `s3://<bucket>` URL whose path is empty yields the non-empty
prefix `/` together with the bucket, while the bare `<bucket>` input
yields an empty prefix. -/
theorem getBucketAndPrefix_s3_bare (bucket : Str)
    (hne : bucket ≠ []) (hc : ':' ∉ bucket) (hs : '/' ∉ bucket) :
    getBucketAndPrefix ("s3://".data ++ bucket) = .ok (bucket, ['/']) ∧
    getBucketAndPrefix bucket = .ok (bucket, []) := by
  constructor
  · have hu : urlParse ("s3://".data ++ bucket) = ⟨"s3".data, bucket, []⟩ := by
      rw [urlParse, urlSplitScheme_s3]
      simp only [GoURL.mk.injEq]
      refine ⟨trivial, ?_, ?_⟩
      · exact List.takeWhile_eq_self_iff.mpr fun a ha => by
          simp only [decide_eq_true_eq]
          exact fun hsl => hs (hsl ▸ ha)
      · exact List.dropWhile_eq_nil_iff.mpr fun a ha => by
          simp only [decide_eq_true_eq]
          exact fun hsl => hs (hsl ▸ ha)
    rw [getBucketAndPrefix, hu]
    simp only
    rw [if_pos (by decide)]
    rfl
  · have hu2 : urlParse bucket = ⟨[], [], bucket⟩ := by
      rw [urlParse, urlSplitScheme_none hc]
    have hsuf : trimSuffix ['/'] bucket = bucket := by
      rw [trimSuffix, if_neg fun hsf =>
        hs ((List.isSuffixOf_iff_suffix.mp hsf).subset (List.mem_singleton_self '/'))]
    have hpre : trimPrefix ['/'] bucket = bucket := by
      rw [trimPrefix, if_neg fun hpf =>
        hs ((List.isPrefixOf_iff_prefix.mp hpf).subset (List.mem_singleton_self '/'))]
    rw [getBucketAndPrefix, hu2]
    simp only
    rw [if_neg (by simp)]
    rw [hsuf, hpre, splitCh_not_mem hs]
    simp only [List.length_singleton, lt_self_iff_false, if_false]
    have hget : ([bucket].getD 0 []) = bucket := rfl
    rw [hget, if_neg (fun h => hne (List.length_eq_zero.mp h))]

theorem getBucketAndPrefix_s3_bare_witness :
    getBucketAndPrefix "s3://mybucket".data = .ok ("mybucket".data, ['/']) ∧
    getBucketAndPrefix "mybucket".data = .ok ("mybucket".data, []) :=
  getBucketAndPrefix_s3_bare "mybucket".data (by decide) (by decide) (by decide)

theorem getExtendGTIDSet_forms_witness :
    getExtendGTIDSet ("u".data ++ ':' :: ("1".data ++ '-' :: "120".data))
        ("u".data ++ ':' :: "60".data) =
      .ok ("u".data ++ ':' :: ("60".data ++ '-' :: "120".data)) :=
  (getExtendGTIDSet_forms "u".data "1".data "120".data "60".data "7".data
    (by decide) (by decide) (by decide) (by decide) (by decide)
    (by decide) (by decide) (by decide) (by decide)).1

/-- C5 counterexample: the comma-containing segment set `u:1-5,v:1-3` is
not rejected — `getExtendGTIDSet` returns a (garbled) exclude range
instead of an error. -/
theorem getExtendGTIDSet_comma_cex :
    getExtendGTIDSet "u:1-5,v:1-3".data "w:9".data = .ok "w:9-5,v".data := by
  decide

theorem getExtendGTIDSet_ok_of_colons_witness :
    (getExtendGTIDSet "a:1-5,b:1-3".data "c:4".data).isOk = true :=
  getExtendGTIDSet_ok_of_colons "a:1-5,b:1-3".data "c:4".data
    (by decide) (by decide)

theorem setBinlogs_noApplicable_witness :
    setBinlogs subEx latestS [] startEx sidecarEx
      ["binlog_9_z-gtid-set".data] = .error .noBinlogs :=
  (setBinlogs_noApplicable subEx latestS [] startEx sidecarEx
    ["binlog_9_z-gtid-set".data]).1 (by decide)

/-- C1 counterexample: for `startGTID = u:1-100` and the monotone
sidecars `[u:1-50, u:1-80, u:1-120, u:1-160]` of scenario S1, the
planner's ordered segment list is `[seg4]` — the walk stops at the very
first (newest) segment because its sidecar already meets the executed
set — not `[seg3, seg4]` as the claim states. -/
theorem setBinlogs_S1_cex :
    setBinlogs subEx latestS [] startEx sidecarEx listEx = .ok ([seg4], []) ∧
    [seg4] ≠ [seg3, seg4] :=
  ⟨by decide, by decide⟩

set_option maxRecDepth 4000 in
theorem setBinlogs_monotone_suffix_witness :
    setBinlogs subEx latestS [] startEx sidecarEx listEx = .ok ([seg4], []) := by
  have h := setBinlogs_monotone_suffix semEx subEx latestS [] startEx sidecarEx
    scEx listEx seg4 [seg3, seg2, seg1] (Or.inl rfl) (by decide) (by decide)
    (fun a b => mkSub_spec semEx a b) (by decide)
  rw [h, if_neg (by decide)]
